import Mathlib

/-!
# Snake: the tick update, input handling and tick gating of `src/main.cpp`

A shallow embedding of the non-rendering part of `main.cpp`: the global game
variables, `processInput`, `gameOver`, `generate_food`, `inRange`, the body of
the `if (currentTime - timer > TICK_RATE)` block and one iteration of the
render loop.

Modelling conventions.

* `glm::vec2` holds two floats. Every coordinate the program ever stores is a
  small integer (it starts at `GRID_SIZE / 2`, is drawn from an integer
  distribution, or is changed by `+= 1` / `-= 1`), and floats represent such
  integers exactly, so a coordinate is an `Int` here.
* `glfwGetTime()` returns a `double`.  A clock reading is the rational number
  the double stands for, and `currentTime - timer` is the binary64 subtraction
  of the program: the exact difference rounded to the nearest double, ties to
  even, with gradual underflow and overflow to infinity (`doubleSub`).  The
  comparison with `TICK_RATE` is made on that rounded difference.
* `std::uniform_int_distribution<>(0, GRID_SIZE - 1)` returns an `int` of the
  closed range `[0, GRID_SIZE - 1]`; one call of `generate_food` consumes two
  such draws, which are passed in as a `FoodDraw`.
* The GLFW window is reduced to its should-close flag.  `gameOverCalls` is not
  a program variable: it counts the invocations of `gameOver`, so that
  "game over was signalled" can be told apart from a close request made with
  the escape key (both set the same window flag).
-/

namespace Snake

/-- Mirror of `const int GRID_SIZE = 16;`. -/
def GRID_SIZE : Int := 16

/-- Mirror of `const float TICK_RATE = 0.1f;`: the exact value of the float
nearest to one tenth, which is what the `double` comparison sees. -/
def TICK_RATE : Rat := 13421773 / 134217728

/-- Integer nearest to the fraction `n / d`, the even one of the two when the
fraction lies half way between them. -/
def roundHalfEven (n d : Nat) : Nat :=
  let q := n / d
  let r := n % d
  if 2 * r < d then q else if d < 2 * r then q + 1 else if q % 2 = 0 then q else q + 1

/-- Number of times `n` can be halved before it drops below two, counted with
at most `fuel` steps. -/
def halvings : Nat → Nat → Nat
  | 0, _ => 0
  | fuel + 1, n => if n < 2 then 0 else halvings fuel (n / 2) + 1

/-- Base-two logarithm of a natural number, rounded down. -/
def floorLog2 (n : Nat) : Nat := halvings n n

/-- Exponent `e` with `2 ^ e <= n / d < 2 ^ (e + 1)`, for positive `n` and `d`:
the difference of the two logarithms, lowered by one when that overshoots. -/
def binade (n d : Nat) : Int :=
  let e : Int := (floorLog2 n : Int) - (floorLog2 d : Int)
  if d * 2 ^ e.toNat ≤ n * 2 ^ (-e).toNat then e else e - 1

/-- Result of a binary64 operation on finite operands: a finite value or an
infinity with its sign. -/
inductive Binary64 where
  | finite (v : Rat)
  | infinite (negative : Bool)
deriving DecidableEq, Repr

/-- Rounding of a rational number to binary64, round to nearest, ties to even:
53 significant bits from exponent `-1022` up, multiples of `2 ^ (-1074)` below,
and an infinity once the rounded value reaches `2 ^ 1024`. -/
def roundBinary64 (x : Rat) : Binary64 :=
  if x = 0 then Binary64.finite 0
  else
    let n := x.num.natAbs
    let d := x.den
    let e := max (binade n d) (-1022)
    let k := e - 52
    let m := roundHalfEven (n * 2 ^ (-k).toNat) (d * 2 ^ k.toNat)
    let v : Rat := (m : Rat) * (2 : Rat) ^ k
    if (2 : Rat) ^ (1024 : Nat) ≤ v then Binary64.infinite (decide (x < 0))
    else Binary64.finite (if x < 0 then -v else v)

/-- The `double` subtraction `a - b` of two finite doubles. -/
def doubleSub (a b : Rat) : Binary64 := roundBinary64 (a - b)

/-- The `double` comparison `r > t` against a finite double `t`. -/
def doubleGt : Binary64 → Rat → Bool
  | Binary64.finite v, t => decide (t < v)
  | Binary64.infinite negative, _ => !negative

/-- Mirror of `enum Direction { UP, DOWN, LEFT, RIGHT };`. -/
inductive Direction where
  | UP
  | DOWN
  | LEFT
  | RIGHT
deriving DecidableEq, Repr

open Direction

/-- Grid coordinate pair, the `glm::vec2` of the program. -/
structure vec2 where
  x : Int
  y : Int
deriving DecidableEq, Repr

/-- Keys held down when `processInput` queries GLFW. -/
structure Keys where
  escape : Bool
  up : Bool
  down : Bool
  left : Bool
  right : Bool
deriving DecidableEq, Repr

/-- Two results of `dis(gen)`, each in the closed range `[0, GRID_SIZE - 1]`. -/
structure FoodDraw where
  x : Int
  y : Int
  hx : 0 ≤ x ∧ x ≤ GRID_SIZE - 1
  hy : 0 ≤ y ∧ y ≤ GRID_SIZE - 1
deriving DecidableEq

/-- Globals `dir`, `next_dir`, `snake_body`, `food_pos`, the locals `lastTime`
and `timer` of `main`, the should-close flag of the window, and the counter of
`gameOver` invocations. -/
structure State where
  dir : Direction
  next_dir : Direction
  snake_body : List vec2
  food_pos : vec2
  lastTime : Rat
  timer : Rat
  shouldClose : Bool
  gameOverCalls : Nat
deriving DecidableEq

/-- Mirror of `inRange`: false when any of the four comparisons holds. -/
def inRange (point : vec2) : Bool :=
  if point.x < 0 || point.y < 0 || point.x > GRID_SIZE - 1 || point.y > GRID_SIZE - 1 then
    false
  else
    true

/-- Mirror of `gameOver`: `glfwSetWindowShouldClose(window, true)`; the call is
counted. -/
def gameOver (s : State) : State :=
  { s with shouldClose := true, gameOverCalls := s.gameOverCalls + 1 }

/-- Mirror of `generate_food`: both coordinates of `food_pos` are overwritten
with fresh draws; nothing else is looked at. -/
def generate_food (r : FoodDraw) (s : State) : State :=
  { s with food_pos := { s.food_pos with x := r.x, y := r.y } }

/-- Mirror of `processInput`: the escape test, then the four arrow tests in the
order UP, DOWN, LEFT, RIGHT, each a separate `if` guarded by `dir`. -/
def processInput (k : Keys) (s : State) : State :=
  let s := if k.escape then { s with shouldClose := true } else s
  let s := if k.up && s.dir != DOWN then { s with next_dir := UP } else s
  let s := if k.down && s.dir != UP then { s with next_dir := DOWN } else s
  let s := if k.left && s.dir != RIGHT then { s with next_dir := LEFT } else s
  let s := if k.right && s.dir != LEFT then { s with next_dir := RIGHT } else s
  s

/-- Element `snake_body[i]`; reading past the end is undefined in the program
and yields the origin here. -/
def bodyAt (body : List vec2) (i : Nat) : vec2 :=
  body.getD i { x := 0, y := 0 }

/-- The four `if (dir == ...)` statements that turn a copy of the head into
`new_head_pos`. -/
def advance (d : Direction) (p : vec2) : vec2 :=
  let p := if d = UP then { p with y := p.y + 1 } else p
  let p := if d = DOWN then { p with y := p.y - 1 } else p
  let p := if d = LEFT then { p with x := p.x - 1 } else p
  let p := if d = RIGHT then { p with x := p.x + 1 } else p
  p

/-- One pass of the body of the self-collision `for` loop at index `i`. -/
def collisionBody (s : State) (i : Nat) : State :=
  if bodyAt s.snake_body 0 = bodyAt s.snake_body (i + 1) then gameOver s else s

/-- The loop `for (size_t i = 0; i < snake_body.size() - 1; ++i)`. -/
def collisionLoop (s : State) : State :=
  (List.range (s.snake_body.length - 1)).foldl collisionBody s

/-- Body of the `if (currentTime - timer > TICK_RATE)` block of `main`. -/
def tickUpdate (currentTime : Rat) (r : FoodDraw) (s : State) : State :=
  let s := { s with timer := currentTime }
  let s := { s with dir := s.next_dir }
  let new_head_pos := advance s.dir (bodyAt s.snake_body 0)
  let s := { s with snake_body := new_head_pos :: s.snake_body }
  let s := if !inRange (bodyAt s.snake_body 0) then gameOver s else s
  let s := collisionLoop s
  if bodyAt s.snake_body 0 = s.food_pos then
    generate_food r s
  else
    { s with snake_body := s.snake_body.dropLast }

/-- One iteration of the render loop, rendering left out: read the clock,
store it in `lastTime`, poll the keys, then run the update when due. -/
def loopIteration (currentTime : Rat) (k : Keys) (r : FoodDraw) (s : State) : State :=
  let s := { s with lastTime := currentTime }
  let s := processInput k s
  if doubleGt (doubleSub currentTime s.timer) TICK_RATE then tickUpdate currentTime r s else s

/-- State of the program when the render loop is entered: one body cell at
`(GRID_SIZE / 2, GRID_SIZE / 2)`, food from `generate_food`, both directions
`RIGHT`, both time stamps equal to the first clock reading. -/
def initial (t0 : Rat) (r : FoodDraw) : State :=
  generate_food r
    { dir := RIGHT
      next_dir := RIGHT
      snake_body := [] ++ [{ x := GRID_SIZE / 2, y := GRID_SIZE / 2 }]
      food_pos := { x := 0, y := 0 }
      lastTime := t0
      timer := t0
      shouldClose := false
      gameOverCalls := 0 }

/-- States the program can be in: the initial one, and those obtained by a key
poll or by a tick update, with any keys, clock readings and random draws. -/
inductive Reachable : State → Prop where
  | start (t0 : Rat) (r : FoodDraw) : Reachable (initial t0 r)
  | poll (k : Keys) {s : State} : Reachable s → Reachable (processInput k s)
  | tick (now : Rat) (r : FoodDraw) {s : State} : Reachable s → Reachable (tickUpdate now r s)

/-- Reverse of a direction: UP/DOWN and LEFT/RIGHT. -/
def opposite : Direction → Direction
  | UP => DOWN
  | DOWN => UP
  | LEFT => RIGHT
  | RIGHT => LEFT

/-- Cell inside `[0, GRID_SIZE) x [0, GRID_SIZE)`. -/
def InGrid (p : vec2) : Prop :=
  0 ≤ p.x ∧ p.x < GRID_SIZE ∧ 0 ≤ p.y ∧ p.y < GRID_SIZE

instance (p : vec2) : Decidable (InGrid p) := by
  unfold InGrid; infer_instance

/-- New head a tick computes from a state: the head moved one unit in the
buffered direction, which the tick commits. -/
def newHead (s : State) : vec2 :=
  advance s.next_dir (bodyAt s.snake_body 0)

/-- Keys with exactly the arrow of direction `d` held, escape as given. -/
def arrowOnly (esc : Bool) : Direction → Keys
  | UP => { escape := esc, up := true, down := false, left := false, right := false }
  | DOWN => { escape := esc, up := false, down := true, left := false, right := false }
  | LEFT => { escape := esc, up := false, down := false, left := true, right := false }
  | RIGHT => { escape := esc, up := false, down := false, left := false, right := true }

/-- Draw `(a, b)` for concrete in-range numbers. -/
def draw (a b : Int) (ha : 0 ≤ a ∧ a ≤ GRID_SIZE - 1) (hb : 0 ≤ b ∧ b ≤ GRID_SIZE - 1) : FoodDraw :=
  { x := a, y := b, hx := ha, hy := hb }

/-- Number of loop indices at which the self-collision test succeeds. -/
def hits (body : List vec2) (n : Nat) : Nat :=
  (List.range n).countP (fun i => decide (bodyAt body 0 = bodyAt body (i + 1)))

/-- Number of `gameOver` invocations a tick makes from state `s`: one when the
new head fails `inRange`, one per body cell the new head coincides with. -/
def tickCalls (s : State) : Nat :=
  (if inRange (newHead s) then 0 else 1) +
    hits (newHead s :: s.snake_body) s.snake_body.length

/-! ## Concrete states used to exercise the theorems -/

/-- Initial state with the food in the corner `(0, 0)`. -/
def startCorner : State := initial 0 (draw 0 0 (by decide) (by decide))

/-- Initial state with the food right in front of the snake, at `(9, 8)`. -/
def startFed : State := initial 0 (draw 9 8 (by decide) (by decide))

/-- Draw that lands on `(9, 8)`. -/
def draw98 : FoodDraw := draw 9 8 (by decide) (by decide)

/-- Draw that lands on `(3, 3)`. -/
def draw33 : FoodDraw := draw 3 3 (by decide) (by decide)

/-- State with a one-cell snake at the left edge about to move left. -/
def leftEdge : State :=
  { dir := UP
    next_dir := LEFT
    snake_body := [{ x := 0, y := 5 }]
    food_pos := { x := 3, y := 3 }
    lastTime := 0
    timer := 0
    shouldClose := false
    gameOverCalls := 0 }

/-- State of the program after seven ticks to the right from `startCorner`:
the head is at `(15, 8)`, the last column. -/
def atRightEdge : State :=
  (tickUpdate 7 draw33 ∘ tickUpdate 6 draw33 ∘ tickUpdate 5 draw33 ∘ tickUpdate 4 draw33 ∘
    tickUpdate 3 draw33 ∘ tickUpdate 2 draw33 ∘ tickUpdate 1 draw33) startCorner

/-- Clock reading `0x1.0000000000003p-5`. -/
def tieTimer : Rat := 4503599627370499 / 144115188075855872

/-- Clock reading `0x1.0ccccd0000001p-3`. -/
def tieNow : Rat := 4728779662426113 / 36028797018963968

/-- State at the start of an iteration whose last tick was at `tieTimer`. -/
def tieState : State := { startCorner with timer := tieTimer, lastTime := tieTimer }

/-- Reachable state used to exercise the invariants: the start state with the
food in the corner, after one key poll (UP held) and one tick. -/
def afterOneTick : State :=
  tickUpdate 1 draw33 (processInput (arrowOnly false UP) startCorner)

/-! ## The self-collision loop -/

theorem hits_succ (body : List vec2) (n : Nat) :
    hits body (n + 1) = hits body n + (if bodyAt body 0 = bodyAt body (n + 1) then 1 else 0) := by
  unfold hits
  rw [List.range_succ, List.countP_append]
  by_cases h : bodyAt body 0 = bodyAt body (n + 1)
  · rw [if_pos h, List.countP_cons_of_pos _ _ (by simpa using h)]; rfl
  · rw [if_neg h, List.countP_cons_of_neg _ _ (by simpa using h)]; rfl

theorem foldl_collisionBody (n : Nat) (s : State) :
    (List.range n).foldl collisionBody s =
      { s with
        shouldClose := s.shouldClose || decide (0 < hits s.snake_body n)
        gameOverCalls := s.gameOverCalls + hits s.snake_body n } := by
  induction n with
  | zero => simp [hits]
  | succ n ih =>
    rw [List.range_succ, List.foldl_append, ih, hits_succ]
    simp only [List.foldl_cons, List.foldl_nil]
    unfold collisionBody
    by_cases h : bodyAt s.snake_body 0 = bodyAt s.snake_body (n + 1)
    · simp only [h, if_true, gameOver, Nat.add_assoc]
      simp
    · simp only [h, if_false, Nat.add_zero]

theorem hits_pos_iff (body : List vec2) (n : Nat) :
    0 < hits body n ↔ ∃ i, i < n ∧ bodyAt body 0 = bodyAt body (i + 1) := by
  unfold hits
  rw [List.countP_pos_iff]
  constructor
  · rintro ⟨i, hi, h⟩
    exact ⟨i, List.mem_range.mp hi, by simpa using h⟩
  · rintro ⟨i, hi, h⟩
    exact ⟨i, List.mem_range.mpr hi, by simpa using h⟩

theorem hits_cons_pos_iff (p : vec2) (body : List vec2) :
    0 < hits (p :: body) body.length ↔ p ∈ body := by
  rw [hits_pos_iff]
  constructor
  · rintro ⟨i, hi, h⟩
    have : bodyAt (p :: body) (i + 1) = body.get ⟨i, hi⟩ := by
      simp [bodyAt, List.getD_eq_getElem?_getD, List.getElem?_eq_getElem hi]
    have h0 : bodyAt (p :: body) 0 = p := by simp [bodyAt]
    rw [h0, this] at h
    rw [h]
    exact List.get_mem _ _ _
  · intro h
    obtain ⟨i, hi, rfl⟩ := List.getElem_of_mem h
    refine ⟨i, hi, ?_⟩
    simp [bodyAt, List.getD_eq_getElem?_getD, List.getElem?_eq_getElem hi]

/-! ## The tick update in closed form -/

theorem tickUpdate_eq (now : Rat) (r : FoodDraw) (s : State) :
    tickUpdate now r s =
      { dir := s.next_dir
        next_dir := s.next_dir
        snake_body :=
          if newHead s = s.food_pos then newHead s :: s.snake_body
          else (newHead s :: s.snake_body).dropLast
        food_pos := if newHead s = s.food_pos then { x := r.x, y := r.y } else s.food_pos
        lastTime := s.lastTime
        timer := now
        shouldClose := s.shouldClose || decide (0 < tickCalls s)
        gameOverCalls := s.gameOverCalls + tickCalls s } := by
  have key : ∀ t : State, t.snake_body = newHead s :: s.snake_body →
      (if bodyAt (collisionLoop t).snake_body 0 = (collisionLoop t).food_pos then
          generate_food r (collisionLoop t)
        else
          { collisionLoop t with snake_body := (collisionLoop t).snake_body.dropLast }) =
        { dir := t.dir
          next_dir := t.next_dir
          snake_body :=
            if newHead s = t.food_pos then newHead s :: s.snake_body
            else (newHead s :: s.snake_body).dropLast
          food_pos := if newHead s = t.food_pos then { x := r.x, y := r.y } else t.food_pos
          lastTime := t.lastTime
          timer := t.timer
          shouldClose :=
            t.shouldClose || decide (0 < hits (newHead s :: s.snake_body) s.snake_body.length)
          gameOverCalls :=
            t.gameOverCalls + hits (newHead s :: s.snake_body) s.snake_body.length } := by
    intro t ht
    unfold collisionLoop
    rw [foldl_collisionBody, ht]
    have h0 : bodyAt (newHead s :: s.snake_body) 0 = newHead s := rfl
    simp only [List.length_cons, Nat.add_sub_cancel, h0]
    by_cases hf : newHead s = t.food_pos
    · simp only [hf, if_true, generate_food]
    · simp only [hf, if_false]
  unfold tickUpdate tickCalls
  by_cases hr : inRange (newHead s) = true
  · have h1 : inRange (bodyAt (newHead s :: s.snake_body) 0) = true := hr
    simp only [newHead] at h1 hr ⊢
    simp only [h1, hr, Bool.not_true, if_true, Bool.false_eq_true, if_false]
    rw [key _ rfl]
    simp [newHead]
  · have h1 : inRange (bodyAt (newHead s :: s.snake_body) 0) = false := by simpa using hr
    simp only [Bool.not_eq_true] at hr
    simp only [newHead] at h1 hr ⊢
    simp only [h1, hr, Bool.not_false, if_true, Bool.false_eq_true, if_false]
    rw [key _ rfl]
    simp [newHead, gameOver, Nat.add_assoc]

theorem inRange_iff (p : vec2) : inRange p = true ↔ InGrid p := by
  unfold inRange InGrid GRID_SIZE
  split
  · rename_i h
    simp only [Bool.or_eq_true, decide_eq_true_eq] at h
    simp only [Bool.false_eq_true, false_iff]
    omega
  · rename_i h
    simp only [Bool.or_eq_true, decide_eq_true_eq, not_or, not_lt] at h
    simp only [true_iff]
    omega

theorem tickCalls_pos_iff (s : State) :
    0 < tickCalls s ↔ ¬ InGrid (newHead s) ∨ newHead s ∈ s.snake_body := by
  unfold tickCalls
  rw [Nat.add_pos_iff_pos_or_pos, hits_cons_pos_iff, ← inRange_iff]
  by_cases h : inRange (newHead s) = true <;> simp [h]

theorem tickCalls_eq_zero_iff (s : State) :
    tickCalls s = 0 ↔ InGrid (newHead s) ∧ newHead s ∉ s.snake_body := by
  have h := tickCalls_pos_iff s
  constructor
  · intro h0
    rw [h0] at h
    by_contra hc
    exact absurd (h.mpr (by tauto)) (Nat.lt_irrefl 0)
  · rintro ⟨h1, h2⟩
    by_contra hc
    rcases h.mp (Nat.pos_of_ne_zero hc) with h3 | h3
    · exact h3 h1
    · exact h2 h3

theorem tickUpdate_gameOverCalls (now : Rat) (r : FoodDraw) (s : State) :
    (tickUpdate now r s).gameOverCalls = s.gameOverCalls + tickCalls s := by
  rw [tickUpdate_eq]

theorem tickUpdate_snake_body (now : Rat) (r : FoodDraw) (s : State) :
    (tickUpdate now r s).snake_body =
      if newHead s = s.food_pos then newHead s :: s.snake_body
      else (newHead s :: s.snake_body).dropLast := by
  rw [tickUpdate_eq]

theorem tickUpdate_food_pos (now : Rat) (r : FoodDraw) (s : State) :
    (tickUpdate now r s).food_pos =
      if newHead s = s.food_pos then { x := r.x, y := r.y } else s.food_pos := by
  rw [tickUpdate_eq]

theorem tickUpdate_dir (now : Rat) (r : FoodDraw) (s : State) :
    (tickUpdate now r s).dir = s.next_dir ∧ (tickUpdate now r s).next_dir = s.next_dir := by
  rw [tickUpdate_eq]; exact ⟨rfl, rfl⟩

theorem dropLast_cons_of_ne_nil (p : vec2) {body : List vec2} (h : body ≠ []) :
    (p :: body).dropLast = p :: body.dropLast := by
  cases body with
  | nil => exact absurd rfl h
  | cons q rest => rfl

theorem draw_inGrid (r : FoodDraw) : InGrid { x := r.x, y := r.y } := by
  have hx := r.hx
  have hy := r.hy
  unfold GRID_SIZE at hx hy
  unfold InGrid GRID_SIZE
  simp only
  omega

theorem advance_eq (d : Direction) (p : vec2) :
    advance d p =
      match d with
      | UP => { x := p.x, y := p.y + 1 }
      | DOWN => { x := p.x, y := p.y - 1 }
      | LEFT => { x := p.x - 1, y := p.y }
      | RIGHT => { x := p.x + 1, y := p.y } := by
  cases d <;> simp [advance]

/-! ## C1: when a tick signals game over -/

/-- C1: for a state whose body is `head :: rest`, one tick commits
`dir := next_dir` and invokes `gameOver` (at least once) exactly when the new
head, the old head moved one unit in the committed direction, is outside
`[0, GRID_SIZE) x [0, GRID_SIZE)` or equals a cell of the pre-tick body, head
and tail included; in that case the window is asked to close.  In particular a
head at `(0, y)` with the pending direction LEFT always signals game over. -/
theorem tick_game_over_iff (now : Rat) (r : FoodDraw) (s : State) (head : vec2)
    (rest : List vec2) (hbody : s.snake_body = head :: rest) :
    (tickUpdate now r s).dir = s.next_dir ∧
    (s.gameOverCalls < (tickUpdate now r s).gameOverCalls ↔
      (¬ InGrid (advance s.next_dir head) ∨ advance s.next_dir head ∈ head :: rest)) ∧
    (s.gameOverCalls < (tickUpdate now r s).gameOverCalls →
      (tickUpdate now r s).shouldClose = true) ∧
    (head.x = 0 → s.next_dir = LEFT →
      s.gameOverCalls < (tickUpdate now r s).gameOverCalls) := by
  have hnh : newHead s = advance s.next_dir head := by simp [newHead, hbody, bodyAt]
  have hiff : s.gameOverCalls < (tickUpdate now r s).gameOverCalls ↔
      (¬ InGrid (advance s.next_dir head) ∨ advance s.next_dir head ∈ head :: rest) := by
    rw [tickUpdate_gameOverCalls, ← hnh, ← hbody, ← tickCalls_pos_iff]
    omega
  refine ⟨(tickUpdate_dir now r s).1, hiff, ?_, ?_⟩
  · intro h
    rw [tickUpdate_gameOverCalls] at h
    have hpos : 0 < tickCalls s := by omega
    rw [tickUpdate_eq]
    simp [hpos]
  · intro hx hd
    apply hiff.mpr
    left
    rw [hd, advance_eq]
    simp only [InGrid, hx]
    omega

theorem tick_game_over_iff_witness :
    leftEdge.gameOverCalls < (tickUpdate 1 draw33 leftEdge).gameOverCalls ∧
      (tickUpdate 1 draw33 leftEdge).shouldClose = true :=
  have h := tick_game_over_iff 1 draw33 leftEdge ⟨0, 5⟩ [] rfl
  ⟨h.2.2.2 rfl rfl, h.2.2.1 (h.2.2.2 rfl rfl)⟩

/-! ## C2: the move law -/

/-- C2: for a state whose body is `head :: rest`, if the new head of a tick is
inside the grid, is not a cell of the pre-tick body and is not the food cell,
then the tick signals no game over and the body afterwards is the new head
followed by the pre-tick body without its last element: the length is
unchanged, the new head is the old head shifted one unit in the committed
direction (UP y+1, DOWN y-1, LEFT x-1, RIGHT x+1), and the food cell is
unchanged. -/
theorem move_law (now : Rat) (r : FoodDraw) (s : State) (head : vec2) (rest : List vec2)
    (hbody : s.snake_body = head :: rest)
    (hin : InGrid (advance s.next_dir head))
    (hfree : advance s.next_dir head ∉ head :: rest)
    (hfood : advance s.next_dir head ≠ s.food_pos) :
    (tickUpdate now r s).gameOverCalls = s.gameOverCalls ∧
    (tickUpdate now r s).snake_body = advance s.next_dir head :: (head :: rest).dropLast ∧
    (tickUpdate now r s).snake_body.length = s.snake_body.length ∧
    (tickUpdate now r s).dir = s.next_dir ∧
    (s.next_dir = UP → advance s.next_dir head = { x := head.x, y := head.y + 1 }) ∧
    (s.next_dir = DOWN → advance s.next_dir head = { x := head.x, y := head.y - 1 }) ∧
    (s.next_dir = LEFT → advance s.next_dir head = { x := head.x - 1, y := head.y }) ∧
    (s.next_dir = RIGHT → advance s.next_dir head = { x := head.x + 1, y := head.y }) ∧
    (tickUpdate now r s).food_pos = s.food_pos := by
  have hnh : newHead s = advance s.next_dir head := by simp [newHead, hbody, bodyAt]
  have hb : (tickUpdate now r s).snake_body =
      advance s.next_dir head :: (head :: rest).dropLast := by
    rw [tickUpdate_snake_body, hnh, if_neg hfood, hbody,
      dropLast_cons_of_ne_nil _ (List.cons_ne_nil head rest)]
  refine ⟨?_, hb, ?_, (tickUpdate_dir now r s).1, ?_, ?_, ?_, ?_, ?_⟩
  · rw [tickUpdate_gameOverCalls, (tickCalls_eq_zero_iff s).mpr]
    · rfl
    · rw [hnh, hbody]; exact ⟨hin, hfree⟩
  · rw [hb, hbody]; simp
  · intro h; rw [h, advance_eq]
  · intro h; rw [h, advance_eq]
  · intro h; rw [h, advance_eq]
  · intro h; rw [h, advance_eq]
  · rw [tickUpdate_food_pos, hnh, if_neg hfood]

theorem move_law_witness :
    (tickUpdate 1 draw33 startCorner).snake_body = [{ x := 9, y := 8 }] ∧
      (tickUpdate 1 draw33 startCorner).food_pos = { x := 0, y := 0 } :=
  have h := move_law 1 draw33 startCorner ⟨8, 8⟩ [] rfl (by decide) (by decide) (by decide)
  ⟨h.2.1, h.2.2.2.2.2.2.2.2⟩

/-! ## C3: the growth law, body -/

/-- C3: for a state whose body is `head :: rest`, if the new head of a tick
equals the food cell, is inside the grid and is not a cell of the pre-tick
body, then the tick signals no game over and the body afterwards is the new
head prepended to the whole pre-tick body: its length is the previous length
plus one and no tail cell is removed. -/
theorem growth_law (now : Rat) (r : FoodDraw) (s : State) (head : vec2) (rest : List vec2)
    (hbody : s.snake_body = head :: rest)
    (hin : InGrid (advance s.next_dir head))
    (hfree : advance s.next_dir head ∉ head :: rest)
    (hfood : advance s.next_dir head = s.food_pos) :
    (tickUpdate now r s).gameOverCalls = s.gameOverCalls ∧
    (tickUpdate now r s).snake_body = advance s.next_dir head :: head :: rest ∧
    (tickUpdate now r s).snake_body.length = s.snake_body.length + 1 := by
  have hnh : newHead s = advance s.next_dir head := by simp [newHead, hbody, bodyAt]
  have hb : (tickUpdate now r s).snake_body = advance s.next_dir head :: head :: rest := by
    rw [tickUpdate_snake_body, hnh, if_pos hfood, hbody]
  refine ⟨?_, hb, ?_⟩
  · rw [tickUpdate_gameOverCalls, (tickCalls_eq_zero_iff s).mpr]
    · rfl
    · rw [hnh, hbody]; exact ⟨hin, hfree⟩
  · rw [hb, hbody]; simp

theorem growth_law_witness :
    (tickUpdate 1 draw33 startFed).snake_body = [{ x := 9, y := 8 }, { x := 8, y := 8 }] ∧
      (tickUpdate 1 draw33 startFed).snake_body.length = startFed.snake_body.length + 1 :=
  have h := growth_law 1 draw33 startFed ⟨8, 8⟩ [] rfl (by decide) (by decide) (by decide)
  ⟨h.2.1, h.2.2⟩

/-! ## C8: a tick whose new head leaves the grid -/

/-- C8 fails as stated: seven ticks after the start the head is at `(15, 8)`,
the food at `(0, 0)` is inside the grid, the next new head `(16, 8)` is outside
it, and the tick leaves the body `[(16, 8)]`, of length one: the tail cell
`(15, 8)` has been removed, so the body is not the new head prepended to the
whole pre-tick body. -/
theorem oob_tick_untrimmed_counterexample :
    atRightEdge.snake_body = [{ x := 15, y := 8 }] ∧
    InGrid atRightEdge.food_pos ∧
    ¬ InGrid (newHead atRightEdge) ∧
    (tickUpdate 8 draw33 atRightEdge).snake_body = [{ x := 16, y := 8 }] ∧
    (tickUpdate 8 draw33 atRightEdge).snake_body ≠ newHead atRightEdge :: atRightEdge.snake_body ∧
    (tickUpdate 8 draw33 atRightEdge).snake_body.length ≠ atRightEdge.snake_body.length + 1 := by
  set_option maxRecDepth 16000 in decide

/-- C8 amended: for a state whose body is `head :: rest` and whose food is
inside the grid, if the new head of a tick is outside the grid, then the tick
signals game over (the window is asked to close) and goes on to the food test,
which fails, so the tail is removed: the body afterwards is the new head
followed by the pre-tick body without its last element, of the same length as
before, and the food cell is unchanged. -/
theorem oob_tick_trims (now : Rat) (r : FoodDraw) (s : State) (head : vec2) (rest : List vec2)
    (hbody : s.snake_body = head :: rest)
    (hfoodin : InGrid s.food_pos)
    (hout : ¬ InGrid (advance s.next_dir head)) :
    s.gameOverCalls < (tickUpdate now r s).gameOverCalls ∧
    (tickUpdate now r s).shouldClose = true ∧
    (tickUpdate now r s).snake_body = advance s.next_dir head :: (head :: rest).dropLast ∧
    (tickUpdate now r s).snake_body.length = s.snake_body.length ∧
    (tickUpdate now r s).food_pos = s.food_pos := by
  have hnh : newHead s = advance s.next_dir head := by simp [newHead, hbody, bodyAt]
  have hfood : advance s.next_dir head ≠ s.food_pos := by
    intro h; rw [h] at hout; exact hout hfoodin
  have hpos : 0 < tickCalls s := (tickCalls_pos_iff s).mpr (Or.inl (by rw [hnh]; exact hout))
  have hb : (tickUpdate now r s).snake_body =
      advance s.next_dir head :: (head :: rest).dropLast := by
    rw [tickUpdate_snake_body, hnh, if_neg hfood, hbody,
      dropLast_cons_of_ne_nil _ (List.cons_ne_nil head rest)]
  refine ⟨?_, ?_, hb, ?_, ?_⟩
  · rw [tickUpdate_gameOverCalls]; omega
  · rw [tickUpdate_eq]; simp [hpos]
  · rw [hb, hbody]; simp
  · rw [tickUpdate_food_pos, hnh, if_neg hfood]

theorem oob_tick_trims_witness :
    (tickUpdate 1 draw33 leftEdge).snake_body = [{ x := -1, y := 5 }] ∧
      (tickUpdate 1 draw33 leftEdge).food_pos = { x := 3, y := 3 } :=
  have h := oob_tick_trims 1 draw33 leftEdge ⟨0, 5⟩ [] rfl (by decide) (by decide)
  ⟨h.2.2.1, h.2.2.2.2⟩

/-! ## C9: the food generated by a growing tick -/

/-- C9 fails as stated: from the start state with the food at `(9, 8)` the
first tick moves the head onto the food (in the grid, not on the body), and
when the generator draws `(9, 8)` again the new food cell equals the eaten
cell, which is now the head of the snake. -/
theorem new_food_differs_counterexample :
    InGrid (newHead startFed) ∧
    newHead startFed ∉ startFed.snake_body ∧
    newHead startFed = startFed.food_pos ∧
    (tickUpdate 1 draw98 startFed).food_pos = startFed.food_pos ∧
    (tickUpdate 1 draw98 startFed).snake_body.head? = some (tickUpdate 1 draw98 startFed).food_pos := by
  decide

/-- C9 amended: for a tick whose new head equals the food cell, and for every
outcome `r` of the random generator, the food cell after the tick is the cell
`(r.x, r.y)` drawn by the generator, which lies in
`[0, GRID_SIZE) x [0, GRID_SIZE)`; nothing keeps it away from the eaten cell. -/
theorem new_food_in_grid (now : Rat) (r : FoodDraw) (s : State) (head : vec2)
    (rest : List vec2) (hbody : s.snake_body = head :: rest)
    (hfood : advance s.next_dir head = s.food_pos) :
    (tickUpdate now r s).food_pos = { x := r.x, y := r.y } ∧
    InGrid (tickUpdate now r s).food_pos := by
  have hnh : newHead s = advance s.next_dir head := by simp [newHead, hbody, bodyAt]
  have hf : (tickUpdate now r s).food_pos = { x := r.x, y := r.y } := by
    rw [tickUpdate_food_pos, hnh, if_pos hfood]
  exact ⟨hf, by rw [hf]; exact draw_inGrid r⟩

theorem new_food_in_grid_witness :
    (tickUpdate 1 draw33 startFed).food_pos = { x := 3, y := 3 } ∧
      InGrid (tickUpdate 1 draw33 startFed).food_pos :=
  new_food_in_grid 1 draw33 startFed ⟨8, 8⟩ [] rfl (by decide)

/-! ## What `processInput` leaves alone -/

theorem processInput_frame (k : Keys) (s : State) :
    (processInput k s).dir = s.dir ∧
    (processInput k s).snake_body = s.snake_body ∧
    (processInput k s).food_pos = s.food_pos ∧
    (processInput k s).timer = s.timer ∧
    (processInput k s).lastTime = s.lastTime ∧
    (processInput k s).gameOverCalls = s.gameOverCalls := by
  obtain ⟨e, u, d, l, r⟩ := k
  obtain ⟨sd, sn, sb, sf, sl, st, sc, sg⟩ := s
  cases e <;> cases u <;> cases d <;> cases l <;> cases r <;> cases sd <;>
    exact ⟨rfl, rfl, rfl, rfl, rfl, rfl⟩

theorem processInput_next_dir (k : Keys) (s : State) (h : s.next_dir ≠ opposite s.dir) :
    (processInput k s).next_dir ≠ opposite s.dir := by
  obtain ⟨e, u, d, l, r⟩ := k
  obtain ⟨sd, sn, sb, sf, sl, st, sc, sg⟩ := s
  cases e <;> cases u <;> cases d <;> cases l <;> cases r <;> cases sd <;> cases sn <;>
    first
      | exact absurd rfl h
      | (intro hc; exact Direction.noConfusion hc)

/-! ## Invariants of the reachable states -/

theorem reachable_body_ne_nil {s : State} (h : Reachable s) : s.snake_body ≠ [] := by
  induction h with
  | start t0 r => simp [initial, generate_food]
  | poll k _ ih => rw [(processInput_frame k _).2.1]; exact ih
  | @tick now r s _ ih =>
    rw [tickUpdate_snake_body]
    split
    · exact List.cons_ne_nil _ _
    · rw [dropLast_cons_of_ne_nil _ ih]; exact List.cons_ne_nil _ _

theorem reachable_dir {s : State} (h : Reachable s) : s.next_dir ≠ opposite s.dir := by
  induction h with
  | start t0 r => simp [initial, generate_food, opposite]
  | poll k _ ih =>
    rw [(processInput_frame k _).1]
    exact processInput_next_dir k _ ih
  | @tick now r s _ ih =>
    rw [(tickUpdate_dir now r s).1, (tickUpdate_dir now r s).2]
    cases s.next_dir <;> simp [opposite]

theorem tick_body_subset (now : Rat) (r : FoodDraw) (s : State) (c : vec2)
    (hc : c ∈ (tickUpdate now r s).snake_body) : c ∈ newHead s :: s.snake_body := by
  rw [tickUpdate_snake_body] at hc
  split at hc
  · exact hc
  · exact List.mem_of_mem_dropLast hc

theorem reachable_inGrid {s : State} (h : Reachable s) (halive : s.gameOverCalls = 0) :
    (∀ c ∈ s.snake_body, InGrid c) ∧ InGrid s.food_pos := by
  induction h with
  | start t0 r =>
    refine ⟨?_, draw_inGrid r⟩
    intro c hc
    simp only [initial, generate_food, List.nil_append, List.mem_singleton] at hc
    rw [hc]; decide
  | poll k _ ih =>
    rw [(processInput_frame k _).2.1, (processInput_frame k _).2.2.1]
    rw [(processInput_frame k _).2.2.2.2.2] at halive
    exact ih halive
  | @tick now r s _ ih =>
    rw [tickUpdate_gameOverCalls] at halive
    have h0 : s.gameOverCalls = 0 := by omega
    have ht : tickCalls s = 0 := by omega
    obtain ⟨hbody, hfood⟩ := ih h0
    have hnh := ((tickCalls_eq_zero_iff s).mp ht).1
    constructor
    · intro c hc
      rcases List.mem_cons.mp (tick_body_subset now r s c hc) with h1 | h1
      · rw [h1]; exact hnh
      · exact hbody c h1
    · rw [tickUpdate_food_pos]
      split
      · exact draw_inGrid r
      · exact hfood

theorem reachable_nodup {s : State} (h : Reachable s) (halive : s.gameOverCalls = 0) :
    s.snake_body.Nodup := by
  induction h with
  | start t0 r => simp [initial, generate_food]
  | poll k _ ih =>
    rw [(processInput_frame k _).2.1]
    rw [(processInput_frame k _).2.2.2.2.2] at halive
    exact ih halive
  | @tick now r s _ ih =>
    rw [tickUpdate_gameOverCalls] at halive
    have h0 : s.gameOverCalls = 0 := by omega
    have ht : tickCalls s = 0 := by omega
    have hfree := ((tickCalls_eq_zero_iff s).mp ht).2
    have hcons : (newHead s :: s.snake_body).Nodup := List.nodup_cons.mpr ⟨hfree, ih h0⟩
    rw [tickUpdate_snake_body]
    split
    · exact hcons
    · exact hcons.sublist (List.dropLast_sublist _)

theorem afterOneTick_reachable : Reachable afterOneTick :=
  Reachable.tick 1 draw33 (Reachable.poll (arrowOnly false UP) (Reachable.start 0 _))

/-! ## C4: the bounds invariant -/

/-- C4: in every state reachable from the initial state by key polls and ticks
in which `gameOver` has not been invoked, every cell of the snake body and the
food cell lie in `[0, GRID_SIZE) x [0, GRID_SIZE)`, whatever the random
generator drew; and if a tick from such a state leaves a cell outside the grid
in the body, that cell is the head and this very tick signalled game over. -/
theorem bounds_invariant (s : State) (hreach : Reachable s) (halive : s.gameOverCalls = 0) :
    (∀ c ∈ s.snake_body, InGrid c) ∧
    InGrid s.food_pos ∧
    (∀ (now : Rat) (r : FoodDraw) (c : vec2),
      c ∈ (tickUpdate now r s).snake_body → ¬ InGrid c →
        (tickUpdate now r s).snake_body.head? = some c ∧
        s.gameOverCalls < (tickUpdate now r s).gameOverCalls) := by
  obtain ⟨hbody, hfood⟩ := reachable_inGrid hreach halive
  refine ⟨hbody, hfood, ?_⟩
  intro now r c hc hout
  have hne := reachable_body_ne_nil hreach
  have hcn : c = newHead s := by
    rcases List.mem_cons.mp (tick_body_subset now r s c hc) with h1 | h1
    · exact h1
    · exact absurd (hbody c h1) hout
  constructor
  · rw [tickUpdate_snake_body, hcn]
    split
    · rfl
    · rw [dropLast_cons_of_ne_nil _ hne]; rfl
  · have hpos : 0 < tickCalls s := (tickCalls_pos_iff s).mpr (Or.inl (by rw [← hcn]; exact hout))
    rw [tickUpdate_gameOverCalls]; omega

theorem bounds_invariant_witness :
    (∀ c ∈ afterOneTick.snake_body, InGrid c) ∧ InGrid afterOneTick.food_pos :=
  have h := bounds_invariant afterOneTick afterOneTick_reachable (by decide)
  ⟨h.1, h.2.1⟩

/-! ## C5: the body invariant -/

/-- C5: in every state reachable from the initial state by key polls and ticks
the snake body has at least one cell, and in every such state in which
`gameOver` has not been invoked the body has no duplicate cells. -/
theorem body_invariant (s : State) (hreach : Reachable s) :
    1 ≤ s.snake_body.length ∧ (s.gameOverCalls = 0 → s.snake_body.Nodup) := by
  refine ⟨?_, fun halive => reachable_nodup hreach halive⟩
  exact List.length_pos.mpr (reachable_body_ne_nil hreach)

theorem body_invariant_witness :
    1 ≤ afterOneTick.snake_body.length ∧ afterOneTick.snake_body.Nodup :=
  have h := body_invariant afterOneTick afterOneTick_reachable
  ⟨h.1, h.2 (by decide)⟩

/-! ## C6: no reversal on input -/

/-- C6: for every state and every direction `d`, with exactly the arrow key of
`d` held (escape held or not), `processInput` leaves `next_dir` unchanged when
`d` is the opposite of the committed direction `dir`, and otherwise sets
`next_dir` to `d` whatever was buffered before; `dir`, the snake body and the
food cell are unchanged in both cases. -/
theorem processInput_no_reversal (esc : Bool) (d : Direction) (s : State) :
    (processInput (arrowOnly esc d) s).next_dir =
      (if d = opposite s.dir then s.next_dir else d) ∧
    (processInput (arrowOnly esc d) s).dir = s.dir ∧
    (processInput (arrowOnly esc d) s).snake_body = s.snake_body ∧
    (processInput (arrowOnly esc d) s).food_pos = s.food_pos := by
  have hf := processInput_frame (arrowOnly esc d) s
  refine ⟨?_, hf.1, hf.2.1, hf.2.2.1⟩
  obtain ⟨sd, sn, sb, sf, sl, st, sc, sg⟩ := s
  cases esc <;> cases d <;> cases sd <;> rfl

/-! ## C7: the direction invariant -/

/-- C7: in every state reachable from the initial state by any interleaving of
key polls, with any combination of keys held, and ticks, `next_dir` is not the
opposite of `dir`; hence the direction a tick commits is never the reverse of
the direction committed before it. -/
theorem direction_invariant (s : State) (hreach : Reachable s) :
    s.next_dir ≠ opposite s.dir ∧
    (∀ (now : Rat) (r : FoodDraw), (tickUpdate now r s).dir ≠ opposite s.dir) := by
  have h := reachable_dir hreach
  refine ⟨h, fun now r => ?_⟩
  rw [(tickUpdate_dir now r s).1]
  exact h

theorem direction_invariant_witness :
    afterOneTick.next_dir ≠ opposite afterOneTick.dir :=
  (direction_invariant afterOneTick afterOneTick_reachable).1

/-! ## Rounding of the elapsed time -/

/-- The gate works on the rounded difference: between the clock readings
`tieTimer` and `tieNow` the exact elapsed time is `TICK_RATE + 2 ^ (-57)`, half
way to the next double, the subtraction rounds it to `TICK_RATE`, and the
update does not run. -/
theorem gate_rounding_example :
    tieNow - tieTimer = TICK_RATE + 1 / 2 ^ 57 ∧
    doubleSub tieNow tieTimer = Binary64.finite TICK_RATE ∧
    (loopIteration tieNow (arrowOnly false UP) draw33 tieState).timer = tieTimer := by
  refine ⟨by norm_num [tieNow, tieTimer, TICK_RATE], by decide!, by decide!⟩

/-! ## C10: tick gating -/

end Snake
